import Mathlib

/-!
Verification of the aggregation layer and persistence policies of the
personal finance tracker (React front-end `Dashboard.tsx` / `Stats.tsx`
and the Supabase schema migration).

Modelling conventions:
* Monetary amounts (`numeric(10,2)` in the schema, JS numbers in the
  client) are modelled as rationals (`Rat`).
* Calendar dates are modelled as explicit `(year, month, day)` triples.
  The client compares `Date` objects built from date-only strings, whose
  timestamp order coincides with lexicographic order on the triple, so
  date comparisons are modelled by the lexicographic Boolean order
  `Date.ble`.  Day-level arithmetic (`setDate(getDate() - k)`,
  `toDateString()` equality) is modelled through the civil day number
  `Date.civil` (days since 1970-01-01, computed by the standard
  days-from-civil algorithm, the same day arithmetic JS `Date`
  performs).
* Row ids (`uuid`) are modelled as `Nat`; user identities as `Nat`.
* JS `Array.prototype.sort` with comparator `(a, b) => b.total - a.total`
  is a stable sort putting larger totals first; it is modelled by
  `List.mergeSort` with the Boolean order `fun a b => b.total ≤ a.total`.
-/

inductive TxnType where
  | expense
  | income
deriving DecidableEq, Repr

/-- A calendar date, as stored in the `date` columns (`YYYY-MM-DD`). -/
structure Date where
  year : Int
  month : Int
  day : Int
deriving DecidableEq, Repr

/-- Lexicographic order on dates: the order of the timestamps JS obtains
by parsing the date strings. -/
def Date.ble (a b : Date) : Bool :=
  a.year < b.year ||
    (a.year == b.year &&
      (a.month < b.month || (a.month == b.month && a.day ≤ b.day)))

/-- Leap-year rule used by the JS `Date` calendar (proleptic Gregorian). -/
def isLeapYear (y : Int) : Bool :=
  y % 4 == 0 && (y % 100 != 0 || y % 400 == 0)

/-- Number of days of month `m` of year `y`; this is what the client
expression `new Date(year, month + 1, 0).getDate()` evaluates to. -/
def daysInMonth (y m : Int) : Int :=
  if m == 2 then (if isLeapYear y then 29 else 28)
  else if m == 4 || m == 6 || m == 9 || m == 11 then 30
  else 31

/-- Civil day number of a date (days since 1970-01-01), following the
standard `days_from_civil` algorithm.  This is the day-granularity
arithmetic that JS `Date` performs for `setDate` and `toDateString`. -/
def Date.civil (d : Date) : Int :=
  let y : Int := if d.month ≤ 2 then d.year - 1 else d.year
  let era : Int := (if 0 ≤ y then y else y - 399) / 400
  let yoe : Int := y - era * 400
  let mp : Int := (d.month + 9) % 12
  let doy : Int := (153 * mp + 2) / 5 + d.day - 1
  let doe : Int := yoe * 365 + yoe / 4 - yoe / 100 + doy
  era * 146097 + doe - 719468

/-- A transaction row as the client sees it (`Transaction` interface in
`lib/supabase.ts`); `user_id`, `description` and `created_at` play no
role in the aggregations and are omitted. -/
structure Transaction where
  category_id : Nat
  amount : Rat
  date : Date
  type : TxnType
deriving DecidableEq, Repr

/-- A category row (`Category` interface); `name`, `color`, `icon` are
display-only and omitted. -/
structure Category where
  id : Nat
  type : TxnType
deriving DecidableEq, Repr

/-- A budget row (`Budget` interface); `month` is the stored first-of-month
date. -/
structure Budget where
  category_id : Nat
  amount : Rat
  month : Date
deriving DecidableEq, Repr

/-- Sum of the `amount` fields of a transaction list (the shape of every
`reduce((sum, t) => sum + Number(t.amount), 0)` in the client). -/
def sumAmounts (ts : List Transaction) : Rat :=
  (ts.map (·.amount)).sum

/-! ### Dashboard totals (`Dashboard.tsx`, lines 57-65) -/

/-- `totalIncome`: sum of amounts of the loaded transactions of type
`income`. -/
def totalIncome (ts : List Transaction) : Rat :=
  sumAmounts (ts.filter (fun t => t.type == .income))

/-- `totalExpenses`: sum of amounts of the loaded transactions of type
`expense`. -/
def totalExpenses (ts : List Transaction) : Rat :=
  sumAmounts (ts.filter (fun t => t.type == .expense))

/-- `balance = totalIncome - totalExpenses`; rendered directly with no
sign handling beyond text colour. -/
def balance (ts : List Transaction) : Rat :=
  totalIncome ts - totalExpenses ts

lemma sumAmounts_nonneg (ts : List Transaction)
    (h : ∀ t ∈ ts, 0 ≤ t.amount) : 0 ≤ sumAmounts ts := by
  apply List.sum_nonneg
  intro x hx
  obtain ⟨t, ht, rfl⟩ := List.mem_map.mp hx
  exact h t ht

/-- **C1.** The displayed balance is `totalIncome - totalExpenses`,
where the totals sum `amount` over the transactions of the matching
kind; when all amounts are positive both totals are non-negative; and
the balance itself may be negative (no special handling). -/
theorem balance_spec (ts : List Transaction) :
    balance ts = totalIncome ts - totalExpenses ts ∧
    totalIncome ts = sumAmounts (ts.filter (fun t => t.type == .income)) ∧
    totalExpenses ts = sumAmounts (ts.filter (fun t => t.type == .expense)) ∧
    ((∀ t ∈ ts, 0 < t.amount) →
      0 ≤ totalIncome ts ∧ 0 ≤ totalExpenses ts) ∧
    ∃ ts' : List Transaction, balance ts' < 0 := by
  refine ⟨rfl, rfl, rfl, ?_, ?_⟩
  · intro hpos
    constructor <;>
    · apply sumAmounts_nonneg
      intro t ht
      exact le_of_lt (hpos t (List.mem_of_mem_filter ht))
  · refine ⟨[⟨1, 5, ⟨2024, 1, 5⟩, .expense⟩], ?_⟩
    simp +decide [balance, totalIncome, totalExpenses, sumAmounts]

/-- Witness for C1: evaluating the dashboard totals on a concrete
transaction list with positive amounts. -/
theorem balance_spec_witness :
    balance [⟨1, 5, ⟨2024, 1, 5⟩, .expense⟩, ⟨2, 7, ⟨2024, 1, 6⟩, .income⟩]
        = 2 ∧
    0 ≤ totalIncome [⟨1, 5, ⟨2024, 1, 5⟩, .expense⟩,
        ⟨2, 7, ⟨2024, 1, 6⟩, .income⟩] := by
  have h := balance_spec
    [⟨1, 5, ⟨2024, 1, 5⟩, .expense⟩, ⟨2, 7, ⟨2024, 1, 6⟩, .income⟩]
  refine ⟨?_, (h.2.2.2.1 ?_).1⟩
  · simp +decide [balance, totalIncome, totalExpenses, sumAmounts]
    norm_num
  · decide

/-! ### Budget utilization (`Stats.tsx`, `BudgetManager`, lines 582-673) -/

/-- `getSpentAmount(categoryId, budgetMonth)`: sum of the amounts of the
expense transactions in the category whose date lies in the inclusive
`[monthStart, monthEnd]` range of the budget month.  `monthStart` is the
stored first-of-month date itself; `monthEnd` is the last day of that
month. -/
def getSpentAmount (ts : List Transaction) (categoryId : Nat)
    (budgetMonth : Date) : Rat :=
  let monthStart := budgetMonth
  let monthEnd : Date :=
    ⟨budgetMonth.year, budgetMonth.month,
      daysInMonth budgetMonth.year budgetMonth.month⟩
  sumAmounts (ts.filter (fun t =>
    t.category_id == categoryId && t.type == .expense &&
      monthStart.ble t.date && t.date.ble monthEnd))

/-- `spent` for a budget card. -/
def budgetSpent (ts : List Transaction) (b : Budget) : Rat :=
  getSpentAmount ts b.category_id b.month

/-- `percentage = (spent / Number(budget.amount)) * 100` (unclamped). -/
def budgetPercentage (ts : List Transaction) (b : Budget) : Rat :=
  budgetSpent ts b / b.amount * 100

/-- `isOverBudget = spent > Number(budget.amount)`. -/
def budgetIsOverBudget (ts : List Transaction) (b : Budget) : Bool :=
  decide (b.amount < budgetSpent ts b)

/-- The bar width actually rendered: `Math.min(percentage, 100)`. -/
def budgetBarWidth (ts : List Transaction) (b : Budget) : Rat :=
  min (budgetPercentage ts b) 100

/-- The overage reported when over budget:
`spent - Number(budget.amount)`. -/
def budgetOverage (ts : List Transaction) (b : Budget) : Rat :=
  budgetSpent ts b - b.amount

/-- **C2.** For every budget and transaction set: `spent` is the sum of
amounts of expense transactions of the budget category dated within the
inclusive month range of `budget.month`; the percentage is
`spent / budget.amount * 100`, clamped to 100 only for the rendered bar
width; `isOverBudget` holds iff `spent > budget.amount` (so it is false
whenever `spent ≤ budget.amount`); and when over budget the reported
overage is `spent - budget.amount`. -/
theorem budget_utilization_spec (ts : List Transaction) (b : Budget) :
    budgetSpent ts b =
      sumAmounts (ts.filter (fun t =>
        t.category_id == b.category_id && t.type == .expense &&
          b.month.ble t.date &&
          t.date.ble ⟨b.month.year, b.month.month,
            daysInMonth b.month.year b.month.month⟩)) ∧
    budgetPercentage ts b = budgetSpent ts b / b.amount * 100 ∧
    budgetBarWidth ts b = min (budgetPercentage ts b) 100 ∧
    (budgetIsOverBudget ts b = true ↔ b.amount < budgetSpent ts b) ∧
    (budgetSpent ts b ≤ b.amount → budgetIsOverBudget ts b = false) ∧
    (budgetIsOverBudget ts b = true →
      budgetOverage ts b = budgetSpent ts b - b.amount) := by
  refine ⟨rfl, rfl, rfl, decide_eq_true_iff, ?_, fun _ => rfl⟩
  intro hle
  simpa [budgetIsOverBudget] using not_lt.mpr hle

/-- Witness for C2: the spec scenario of a budget of 50 with 80 spent in
its month is over budget with overage 30, via `budget_utilization_spec`
at that concrete input. -/
theorem budget_utilization_spec_witness :
    budgetIsOverBudget
        [⟨1, 50, ⟨2024, 1, 5⟩, .expense⟩, ⟨1, 30, ⟨2024, 1, 5⟩, .expense⟩]
        ⟨1, 50, ⟨2024, 1, 1⟩⟩ = true ∧
    budgetOverage
        [⟨1, 50, ⟨2024, 1, 5⟩, .expense⟩, ⟨1, 30, ⟨2024, 1, 5⟩, .expense⟩]
        ⟨1, 50, ⟨2024, 1, 1⟩⟩ = 30 := by
  have h := budget_utilization_spec
    [⟨1, 50, ⟨2024, 1, 5⟩, .expense⟩, ⟨1, 30, ⟨2024, 1, 5⟩, .expense⟩]
    ⟨1, 50, ⟨2024, 1, 1⟩⟩
  have hspent : budgetSpent
      [⟨1, 50, ⟨2024, 1, 5⟩, .expense⟩, ⟨1, 30, ⟨2024, 1, 5⟩, .expense⟩]
      ⟨1, 50, ⟨2024, 1, 1⟩⟩ = 80 := by
    simp +decide [budgetSpent, getSpentAmount, sumAmounts, Date.ble,
      daysInMonth, isLeapYear]
    norm_num
  have hover : budgetIsOverBudget
      [⟨1, 50, ⟨2024, 1, 5⟩, .expense⟩, ⟨1, 30, ⟨2024, 1, 5⟩, .expense⟩]
      ⟨1, 50, ⟨2024, 1, 1⟩⟩ = true := by
    refine h.2.2.2.1.mpr ?_
    rw [hspent]
    norm_num
  refine ⟨hover, ?_⟩
  have := h.2.2.2.2.2 hover
  rw [this, hspent]
  norm_num

/-! ### Month-to-date breakdown (`Stats.tsx`, lines 11-34) -/

/-- `monthStart = new Date(currentMonth + "-01")` for the reference
month `(y, m)`. -/
def monthStartOf (y m : Int) : Date := ⟨y, m, 1⟩

/-- `monthEnd = new Date(monthStart.getFullYear(), monthStart.getMonth() + 1, 0)`:
the last day of the reference month. -/
def monthEndOf (y m : Int) : Date := ⟨y, m, daysInMonth y m⟩

/-- `monthTransactions`: transactions whose date lies in the inclusive
`[monthStart, monthEnd]` range of the reference month. -/
def monthTransactions (y m : Int) (ts : List Transaction) :
    List Transaction :=
  ts.filter (fun t =>
    (monthStartOf y m).ble t.date && t.date.ble (monthEndOf y m))

/-- The per-category month-to-date expense sum (the `total` computed for
each expense category inside `expensesByCategory`). -/
def categoryMonthTotal (y m : Int) (ts : List Transaction)
    (c : Category) : Rat :=
  sumAmounts ((monthTransactions y m ts).filter
    (fun t => t.category_id == c.id && t.type == .expense))

/-- One entry of the `expensesByCategory` pipeline:
`{ category, total }`. -/
structure CategoryTotal where
  category : Category
  total : Rat
deriving DecidableEq, Repr

/-- The mapped stage of `expensesByCategory`: every expense category
paired with its month-to-date sum (before the `total > 0` filter, the
sort and the truncation). -/
def expenseCategoryTotals (y m : Int) (cats : List Category)
    (ts : List Transaction) : List CategoryTotal :=
  (cats.filter (fun c => c.type == .expense)).map
    (fun c => ⟨c, categoryMonthTotal y m ts c⟩)

/-- `expensesByCategory`: keep categories with positive total, sort by
total descending (stable JS sort, modelled by `mergeSort` on the flipped
order), truncate to the first five. -/
def expensesByCategory (y m : Int) (cats : List Category)
    (ts : List Transaction) : List CategoryTotal :=
  (((expenseCategoryTotals y m cats ts).filter
      (fun item => decide (0 < item.total))).mergeSort
      (fun a b => decide (b.total ≤ a.total))).take 5

/-- `totalMonthExpenses`: the total of all expense transactions of the
reference month. -/
def totalMonthExpenses (y m : Int) (ts : List Transaction) : Rat :=
  sumAmounts ((monthTransactions y m ts).filter
    (fun t => t.type == .expense))

/-! Helper lemmas about sums over filtered lists. -/

lemma sumAmounts_filter_sublist_le {p : Transaction → Bool}
    (ts : List Transaction) (h : ∀ t ∈ ts, 0 ≤ t.amount) :
    sumAmounts (ts.filter p) ≤ sumAmounts ts := by
  induction ts with
  | nil => simp [sumAmounts]
  | cons t ts ih =>
    have ht : 0 ≤ t.amount := h t (List.mem_cons_self ..)
    have ih' := ih (fun u hu => h u (List.mem_cons_of_mem _ hu))
    by_cases hp : p t
    · simpa [sumAmounts, List.filter_cons, hp] using
        add_le_add_left ih' t.amount
    · simp only [sumAmounts, List.filter_cons, hp, Bool.false_eq_true,
        if_false, List.map_cons, List.sum_cons]
      calc sumAmounts (ts.filter p) ≤ sumAmounts ts := ih'
        _ ≤ t.amount + sumAmounts ts := le_add_of_nonneg_left ht

/-- The transactions of the reference month of type expense (the list
whose amounts `totalMonthExpenses` sums). -/
def monthExpenseTransactions (y m : Int) (ts : List Transaction) :
    List Transaction :=
  (monthTransactions y m ts).filter (fun t => t.type == .expense)

lemma totalMonthExpenses_eq (y m : Int) (ts : List Transaction) :
    totalMonthExpenses y m ts = sumAmounts (monthExpenseTransactions y m ts) :=
  rfl

lemma categoryMonthTotal_eq_filter (y m : Int) (ts : List Transaction)
    (c : Category) :
    categoryMonthTotal y m ts c =
      sumAmounts ((monthExpenseTransactions y m ts).filter
        (fun t => t.category_id == c.id)) := by
  unfold categoryMonthTotal monthExpenseTransactions
  rw [List.filter_filter]

lemma categoryMonthTotal_le (y m : Int) (ts : List Transaction)
    (c : Category) (hnonneg : ∀ t ∈ ts, 0 ≤ t.amount) :
    categoryMonthTotal y m ts c ≤ totalMonthExpenses y m ts := by
  rw [categoryMonthTotal_eq_filter, totalMonthExpenses_eq]
  apply sumAmounts_filter_sublist_le
  intro t ht
  exact hnonneg t
    (List.mem_of_mem_filter (List.mem_of_mem_filter ht))

/-- **C4.** If `totalMonthExpenses` is 0 then the breakdown list is
empty, so the client never evaluates the percentage division
`total / totalMonthExpenses * 100` with a zero denominator: that
division is only computed for entries of `expensesByCategory`, and here
there are none (the "No expenses this month" branch renders instead). -/
theorem zero_month_expenses_guard (y m : Int) (cats : List Category)
    (ts : List Transaction) (hnonneg : ∀ t ∈ ts, 0 ≤ t.amount)
    (h0 : totalMonthExpenses y m ts = 0) :
    expensesByCategory y m cats ts = [] := by
  have hfil : (expenseCategoryTotals y m cats ts).filter
      (fun item => decide (0 < item.total)) = [] := by
    rw [List.filter_eq_nil_iff]
    intro item hitem
    obtain ⟨c, _, rfl⟩ := List.mem_map.mp hitem
    have hle := categoryMonthTotal_le y m ts c hnonneg
    rw [h0] at hle
    simpa using not_lt.mpr hle
  rw [expensesByCategory, hfil]
  simp

/-- Witness for C4: with only an income transaction loaded, the month
expense total is 0 and the breakdown list is empty. -/
theorem zero_month_expenses_guard_witness :
    totalMonthExpenses 2024 1 [⟨1, 5, ⟨2024, 1, 10⟩, .income⟩] = 0 ∧
    expensesByCategory 2024 1 [⟨1, .expense⟩]
      [⟨1, 5, ⟨2024, 1, 10⟩, .income⟩] = [] := by
  have h0 : totalMonthExpenses 2024 1 [⟨1, 5, ⟨2024, 1, 10⟩, .income⟩] = 0 := by
    simp +decide [totalMonthExpenses, monthTransactions, sumAmounts,
      Date.ble, monthStartOf, monthEndOf, daysInMonth, isLeapYear]
  refine ⟨h0, zero_month_expenses_guard 2024 1 [⟨1, .expense⟩]
    [⟨1, 5, ⟨2024, 1, 10⟩, .income⟩] ?_ h0⟩
  decide

lemma sumAmounts_cons (t : Transaction) (ts : List Transaction) :
    sumAmounts (t :: ts) = t.amount + sumAmounts ts := by
  simp [sumAmounts]

lemma sumAmounts_filter_or_of_disjoint {p q : Transaction → Bool}
    (ts : List Transaction)
    (hdisj : ∀ t ∈ ts, ¬(p t = true ∧ q t = true)) :
    sumAmounts (ts.filter (fun t => p t || q t)) =
      sumAmounts (ts.filter p) + sumAmounts (ts.filter q) := by
  induction ts with
  | nil => simp [sumAmounts]
  | cons t ts ih =>
    have ih' := ih (fun u hu => hdisj u (List.mem_cons_of_mem _ hu))
    have hd := hdisj t (List.mem_cons_self ..)
    by_cases hp : p t
    · have hq : q t = false := by
        cases hqt : q t
        · rfl
        · exact absurd ⟨hp, hqt⟩ hd
      simp only [List.filter_cons, hp, hq, Bool.true_or, if_true,
        Bool.false_eq_true, if_false, sumAmounts_cons, ih']
      ring
    · have hp' : p t = false := by simpa using hp
      by_cases hq : q t
      · simp only [List.filter_cons, hp', hq, Bool.false_or, if_true,
          Bool.false_eq_true, if_false, sumAmounts_cons, ih']
        ring
      · have hq' : q t = false := by simpa using hq
        simp only [List.filter_cons, hp', hq', Bool.false_or,
          Bool.false_eq_true, if_false, sumAmounts_cons, ih']

/-- Summing the per-category totals over a duplicate-free category list
is the same as summing the amounts of the transactions matching some of
those categories. -/
lemma sum_category_filters (l : List Transaction) :
    ∀ cs : List Category, (cs.map (·.id)).Nodup →
      ((cs.map (fun c => sumAmounts (l.filter
          (fun t => t.category_id == c.id)))).sum =
        sumAmounts (l.filter
          (fun t => cs.any (fun c => t.category_id == c.id)))) := by
  intro cs
  induction cs with
  | nil => intro _; simp [sumAmounts]
  | cons c cs ih =>
    intro hnodup
    rw [List.map_cons, List.nodup_cons] at hnodup
    obtain ⟨hc, htail⟩ := hnodup
    have hsplit := sumAmounts_filter_or_of_disjoint
      (p := fun t => t.category_id == c.id)
      (q := fun t => cs.any (fun c => t.category_id == c.id)) l ?_
    · rw [List.map_cons, List.sum_cons, ih htail]
      rw [show (fun t : Transaction =>
          (c :: cs).any (fun c => t.category_id == c.id)) =
        (fun t : Transaction => (t.category_id == c.id ||
          cs.any (fun c => t.category_id == c.id))) from rfl]
      rw [hsplit]
    · intro t _ hboth
      obtain ⟨hpc, hqc⟩ := hboth
      obtain ⟨c', hc', hcid⟩ := List.any_eq_true.mp hqc
      apply hc
      rw [List.mem_map]
      refine ⟨c', hc', ?_⟩
      have h1 : t.category_id = c.id := by simpa using hpc
      have h2 : t.category_id = c'.id := by simpa using hcid
      omega

/-- The sum of the per-expense-category month-to-date sums (summing the
`total` field over the mapped stage of the breakdown). -/
def sumOfCategoryTotals (y m : Int) (cats : List Category)
    (ts : List Transaction) : Rat :=
  ((expenseCategoryTotals y m cats ts).map (·.total)).sum

/-- **C5 (amended).** With duplicate-free category ids and non-negative
amounts (both enforced by the schema), the sum of the per-category
month-to-date expense sums is at most `totalMonthExpenses`, with
equality when every expense transaction of the month references an
expense-typed category present in the category set.  (The original
claim required only that the referenced category be present; see the
counterexample with an income-typed category.) -/
theorem category_sums_totalMonth (y m : Int) (cats : List Category)
    (ts : List Transaction) (hnodup : (cats.map (·.id)).Nodup)
    (hnonneg : ∀ t ∈ ts, 0 ≤ t.amount) :
    sumOfCategoryTotals y m cats ts ≤ totalMonthExpenses y m ts ∧
    ((∀ t ∈ monthExpenseTransactions y m ts,
        ∃ c ∈ cats, c.type = .expense ∧ c.id = t.category_id) →
      sumOfCategoryTotals y m cats ts = totalMonthExpenses y m ts) := by
  have hsub : List.Sublist
      ((cats.filter (fun c => c.type == .expense)).map (·.id))
      (cats.map (·.id)) :=
    (List.filter_sublist _).map _
  have hnodup' :
      ((cats.filter (fun c => c.type == .expense)).map (·.id)).Nodup :=
    hnodup.sublist hsub
  have hkey : sumOfCategoryTotals y m cats ts =
      sumAmounts ((monthExpenseTransactions y m ts).filter
        (fun t => (cats.filter (fun c => c.type == .expense)).any
          (fun c => t.category_id == c.id))) := by
    unfold sumOfCategoryTotals expenseCategoryTotals
    rw [List.map_map]
    have hfun : ((fun ct : CategoryTotal => ct.total) ∘
        (fun c => (⟨c, categoryMonthTotal y m ts c⟩ : CategoryTotal))) =
        (fun c => sumAmounts ((monthExpenseTransactions y m ts).filter
          (fun t => t.category_id == c.id))) := by
      funext c
      exact categoryMonthTotal_eq_filter y m ts c
    rw [hfun]
    exact sum_category_filters _ _ hnodup'
  constructor
  · rw [hkey, totalMonthExpenses_eq]
    apply sumAmounts_filter_sublist_le
    intro t ht
    exact hnonneg t (List.mem_of_mem_filter (List.mem_of_mem_filter ht))
  · intro hcov
    rw [hkey, totalMonthExpenses_eq]
    congr 1
    rw [List.filter_eq_self]
    intro t ht
    obtain ⟨c, hcmem, hctype, hcid⟩ := hcov t ht
    rw [List.any_eq_true]
    refine ⟨c, ?_, by simp [hcid]⟩
    rw [List.mem_filter]
    exact ⟨hcmem, by simp [hctype]⟩

/-- Witness for C5: the per-category sums and the month total evaluated
on a concrete single-category data set. -/
theorem category_sums_totalMonth_witness :
    sumOfCategoryTotals 2024 1 [⟨1, .expense⟩]
        [⟨1, 4, ⟨2024, 1, 5⟩, .expense⟩]
      ≤ totalMonthExpenses 2024 1 [⟨1, 4, ⟨2024, 1, 5⟩, .expense⟩] :=
  (category_sums_totalMonth 2024 1 [⟨1, .expense⟩]
    [⟨1, 4, ⟨2024, 1, 5⟩, .expense⟩] (by decide) (by decide)).1

/-- Counterexample for C5 as stated: an expense transaction whose
category is present in the set but income-typed is counted in
`totalMonthExpenses` and in no per-category expense sum, so mere
presence of the referenced category does not give equality. -/
theorem category_sums_equality_counterexample :
    (∀ t ∈ monthExpenseTransactions 2024 1
        [⟨1, 5, ⟨2024, 1, 5⟩, .expense⟩],
      t.category_id ∈ ([⟨1, .income⟩] : List Category).map (·.id)) ∧
    sumOfCategoryTotals 2024 1 [⟨1, .income⟩]
        [⟨1, 5, ⟨2024, 1, 5⟩, .expense⟩] = 0 ∧
    totalMonthExpenses 2024 1 [⟨1, 5, ⟨2024, 1, 5⟩, .expense⟩] = 5 ∧
    sumOfCategoryTotals 2024 1 [⟨1, .income⟩]
        [⟨1, 5, ⟨2024, 1, 5⟩, .expense⟩]
      ≠ totalMonthExpenses 2024 1 [⟨1, 5, ⟨2024, 1, 5⟩, .expense⟩] := by
  have h2 : sumOfCategoryTotals 2024 1 [⟨1, .income⟩]
      [⟨1, 5, ⟨2024, 1, 5⟩, .expense⟩] = 0 := rfl
  have h3 : totalMonthExpenses 2024 1 [⟨1, 5, ⟨2024, 1, 5⟩, .expense⟩]
      = 5 := by
    simp +decide [totalMonthExpenses, monthTransactions, sumAmounts,
      Date.ble, monthStartOf, monthEndOf, daysInMonth, isLeapYear]
  refine ⟨?_, h2, h3, ?_⟩
  · decide
  · rw [h2, h3]
    norm_num

/-- **C3 (amended).** The top-expenses list has at most five entries,
every entry is an expense category with a strictly positive
month-to-date sum (namely its `categoryMonthTotal`), and the list is
sorted in non-increasing order of that sum.  (The original claim asked
for strictly descending order, which fails when two categories tie; see
the counterexample.) -/
theorem topExpenses_spec (y m : Int) (cats : List Category)
    (ts : List Transaction) :
    (expensesByCategory y m cats ts).length ≤ 5 ∧
    (∀ e ∈ expensesByCategory y m cats ts,
      e.category.type = .expense ∧ 0 < e.total ∧
      e.total = categoryMonthTotal y m ts e.category) ∧
    (expensesByCategory y m cats ts).Pairwise
      (fun a b => b.total ≤ a.total) := by
  refine ⟨List.length_take_le _ _, ?_, ?_⟩
  · intro e he
    have hsort := List.mem_of_mem_take he
    have hfil := List.mem_mergeSort.mp hsort
    obtain ⟨hmap, hpos⟩ := List.mem_filter.mp hfil
    obtain ⟨c, hc, rfl⟩ := List.mem_map.mp hmap
    obtain ⟨_, hctype⟩ := List.mem_filter.mp hc
    exact ⟨by simpa using hctype, of_decide_eq_true hpos, rfl⟩
  · have hsorted := @List.sorted_mergeSort CategoryTotal
      (fun a b : CategoryTotal => decide (b.total ≤ a.total))
      (fun a b c hab hbc =>
        decide_eq_true
          (le_trans (of_decide_eq_true hbc) (of_decide_eq_true hab)))
      (fun a b => by
        rcases le_total b.total a.total with h | h
        · simp [h]
        · simp [h])
      ((expenseCategoryTotals y m cats ts).filter
        (fun item => decide (0 < item.total)))
    have hpair := hsorted.imp
      (fun {a b} hab => of_decide_eq_true hab)
    exact hpair.sublist (List.take_sublist _ _)

/-- Concrete evaluation of the full breakdown pipeline on a
single-category data set (used by the C3 witness). -/
lemma expensesByCategory_singleton_eval :
    expensesByCategory 2024 1 [⟨1, .expense⟩]
        [⟨1, 10, ⟨2024, 1, 5⟩, .expense⟩]
      = [⟨⟨1, .expense⟩, 10⟩] := by
  have hfil : (expenseCategoryTotals 2024 1 [⟨1, .expense⟩]
        [⟨1, 10, ⟨2024, 1, 5⟩, .expense⟩]).filter
      (fun item => decide (0 < item.total))
      = [⟨⟨1, .expense⟩, 10⟩] := by
    simp +decide [expenseCategoryTotals, categoryMonthTotal,
      monthTransactions, sumAmounts, Date.ble, monthStartOf, monthEndOf,
      daysInMonth, isLeapYear]
  rw [expensesByCategory, hfil, List.mergeSort_singleton]
  rfl

/-- Witness for C3: on the singleton data set the single produced entry
is an expense category with positive total, and the list respects the
length bound, via `topExpenses_spec`. -/
theorem topExpenses_spec_witness :
    (⟨⟨1, .expense⟩, 10⟩ : CategoryTotal).category.type = .expense ∧
    (0 : Rat) < (⟨⟨1, .expense⟩, 10⟩ : CategoryTotal).total ∧
    (expensesByCategory 2024 1 [⟨1, .expense⟩]
      [⟨1, 10, ⟨2024, 1, 5⟩, .expense⟩]).length ≤ 5 := by
  have h := topExpenses_spec 2024 1 [⟨1, .expense⟩]
    [⟨1, 10, ⟨2024, 1, 5⟩, .expense⟩]
  have hmem : (⟨⟨1, .expense⟩, 10⟩ : CategoryTotal) ∈
      expensesByCategory 2024 1 [⟨1, .expense⟩]
        [⟨1, 10, ⟨2024, 1, 5⟩, .expense⟩] := by
    rw [expensesByCategory_singleton_eval]
    exact List.mem_singleton.mpr rfl
  have h2 := h.2.1 _ hmem
  exact ⟨h2.1, h2.2.1, h.1⟩

/-- Counterexample for C3 as stated: two expense categories with equal
month-to-date sums (10 each) both survive the pipeline, and a list with
two equal totals is not strictly descending. -/
theorem topExpenses_strict_desc_counterexample :
    ¬ (expensesByCategory 2024 1 [⟨1, .expense⟩, ⟨2, .expense⟩]
        [⟨1, 10, ⟨2024, 1, 5⟩, .expense⟩,
          ⟨2, 10, ⟨2024, 1, 6⟩, .expense⟩]).Pairwise
      (fun a b => b.total < a.total) := by
  intro h
  have hfil : (expenseCategoryTotals 2024 1 [⟨1, .expense⟩, ⟨2, .expense⟩]
        [⟨1, 10, ⟨2024, 1, 5⟩, .expense⟩,
          ⟨2, 10, ⟨2024, 1, 6⟩, .expense⟩]).filter
      (fun item => decide (0 < item.total))
      = [⟨⟨1, .expense⟩, 10⟩, ⟨⟨2, .expense⟩, 10⟩] := by
    simp +decide [expenseCategoryTotals, categoryMonthTotal,
      monthTransactions, sumAmounts, Date.ble, monthStartOf, monthEndOf,
      daysInMonth, isLeapYear]
  rw [expensesByCategory, hfil] at h
  set L := ([⟨⟨1, .expense⟩, 10⟩, ⟨⟨2, .expense⟩, 10⟩] :
    List CategoryTotal).mergeSort
      (fun a b => decide (b.total ≤ a.total)) with hL
  have hlen : L.length = 2 := by
    rw [hL, List.length_mergeSort]
    rfl
  have htake : L.take 5 = L := List.take_of_length_le (by omega)
  rw [htake] at h
  have h1 : (⟨⟨1, .expense⟩, 10⟩ : CategoryTotal) ∈ L := by
    rw [hL, List.mem_mergeSort]
    simp
  have h2 : (⟨⟨2, .expense⟩, 10⟩ : CategoryTotal) ∈ L := by
    rw [hL, List.mem_mergeSort]
    simp
  have hne : (⟨⟨1, .expense⟩, 10⟩ : CategoryTotal)
      ≠ ⟨⟨2, .expense⟩, 10⟩ := by
    decide
  have hpair : L.Pairwise (fun a b : CategoryTotal => a.total ≠ b.total) :=
    h.imp (fun hab => ne_of_gt hab)
  have hsym : Symmetric (fun a b : CategoryTotal => a.total ≠ b.total) :=
    fun a b hab => hab.symm
  exact (hpair.forall hsym h1 h2 hne) rfl

/-! ### Trailing 7-day series (`Stats.tsx`, lines 36-60)

`last30Days` keeps transactions from the last 30 days before computing
the 7-day series.  The JS cutoff `thirtyDaysAgo` carries the current
time of day, which can only affect whether the day exactly 30 days back
is included; that day lies outside the 7-day window, so the cutoff is
modelled at day granularity. -/

/-- The 30-day pre-filter applied before building the daily series. -/
def last30Days (today : Date) (ts : List Transaction) :
    List Transaction :=
  ts.filter (fun t => decide (today.civil - 30 ≤ t.date.civil))

/-- One entry of the 7-day series; `dayIdx` is the civil day number of
the calendar day the entry describes (the rendered weekday label is a
function of that day). -/
structure DayEntry where
  dayIdx : Int
  expenses : Rat
  income : Rat
deriving DecidableEq, Repr

/-- The per-day body of the series: filter the pool to the transactions
of calendar day `d`, then sum expenses and income separately. -/
def dayStats (pool : List Transaction) (d : Int) : DayEntry :=
  ⟨d,
    sumAmounts ((pool.filter (fun t => t.date.civil == d)).filter
      (fun t => t.type == .expense)),
    sumAmounts ((pool.filter (fun t => t.date.civil == d)).filter
      (fun t => t.type == .income))⟩

/-- `dailyData`: for `i = 0, …, 6` the day `today - (6 - i)` with its
expense and income totals, computed from the 30-day pre-filtered pool
as in the source. -/
def dailyData (today : Date) (ts : List Transaction) : List DayEntry :=
  (List.range 7).map (fun i : Nat =>
    dayStats (last30Days today ts) (today.civil - (6 - (i : Int))))

/-- Comparison definition for the refinement claim: the same series
computed directly over the full transaction list, with no 30-day
pre-filter. -/
def dailyDataFull (today : Date) (ts : List Transaction) : List DayEntry :=
  (List.range 7).map (fun i : Nat =>
    dayStats ts (today.civil - (6 - (i : Int))))

lemma dayStats_last30 (today : Date) (ts : List Transaction) (d : Int)
    (hd : today.civil - 30 ≤ d) :
    dayStats (last30Days today ts) d = dayStats ts d := by
  have hpool : (last30Days today ts).filter (fun t => t.date.civil == d)
      = ts.filter (fun t => t.date.civil == d) := by
    unfold last30Days
    rw [List.filter_filter]
    apply List.filter_congr
    intro x _
    cases hx : (x.date.civil == d)
    · simp [hx]
    · have hxd : x.date.civil = d := by simpa using hx
      simp [hx, hxd, hd]
  unfold dayStats
  rw [hpool]

/-- **C10.** The per-day totals of the 7-day series computed after the
30-day pre-filter coincide with the series computed directly over the
full transaction set: the pre-filter never excludes a transaction dated
on one of the 7 trailing days. -/
theorem last30_prefilter_refines (today : Date) (ts : List Transaction) :
    dailyData today ts = dailyDataFull today ts := by
  unfold dailyData dailyDataFull
  apply List.map_congr_left
  intro i hi
  apply dayStats_last30
  have : i < 7 := List.mem_range.mp hi
  omega

/-- **C6.** The trailing activity series has exactly 7 entries; entry
`i` describes the day `today - 6 + i` (so the entries run oldest to
newest and the last one is the current day); and each entry sums the
amounts of the transactions of the full loaded set whose date equals
that exact calendar day, expenses and income separately. -/
theorem dailyData_spec (today : Date) (ts : List Transaction) :
    (dailyData today ts).length = 7 ∧
    (∀ i (h : i < (dailyData today ts).length),
      ((dailyData today ts).get ⟨i, h⟩).dayIdx = today.civil - 6 + i) ∧
    (∀ e ∈ dailyData today ts,
      e.expenses = sumAmounts ((ts.filter
          (fun t => t.date.civil == e.dayIdx)).filter
        (fun t => t.type == .expense)) ∧
      e.income = sumAmounts ((ts.filter
          (fun t => t.date.civil == e.dayIdx)).filter
        (fun t => t.type == .income))) := by
  refine ⟨by simp [dailyData], ?_, ?_⟩
  · intro i h
    simp only [dailyData, List.get_eq_getElem, List.getElem_map,
      List.getElem_range, dayStats]
    omega
  · intro e he
    obtain ⟨i, hi, rfl⟩ := List.mem_map.mp he
    have hbound : (i : Int) < 7 := by
      exact_mod_cast List.mem_range.mp hi
    have h30 := dayStats_last30 today ts (today.civil - (6 - (i : Int)))
      (by omega)
    rw [h30]
    exact ⟨rfl, rfl⟩

/-- Witness for C6: on an empty transaction list and a fixed current
day the series still has 7 entries and its first entry describes the
day six days before the current one. -/
theorem dailyData_spec_witness :
    (dailyData ⟨2024, 1, 15⟩ []).length = 7 ∧
    ((dailyData ⟨2024, 1, 15⟩ []).get ⟨0, by simp [dailyData]⟩).dayIdx
      = Date.civil ⟨2024, 1, 15⟩ - 6 := by
  have h := dailyData_spec ⟨2024, 1, 15⟩ []
  refine ⟨h.1, ?_⟩
  have h2 := h.2.1 0 (by simp [dailyData])
  simpa using h2

/-! ### Persistence layer (`supabase/migrations/20251015134157_create_finance_tracker_schema.sql`)

The three tables are modelled as lists of rows; an insert enforces, in
order, the row-level-security `WITH CHECK (auth.uid() = user_id)`
policy, the `CHECK (amount > 0)` column constraint, and for budgets the
`UNIQUE(user_id, category_id, month)` constraint.  Foreign-key
referential integrity is not involved in any claim and is omitted. -/

def rlsViolationMsg : String :=
  "new row violates row-level security policy"

def checkViolationMsg : String :=
  "new row violates check constraint"

def uniqueViolationMsg : String :=
  "duplicate key value violates unique constraint"

/-- A `categories` table row (display columns kept as plain strings). -/
structure CategoryRow where
  user_id : Nat
  name : String
  type : TxnType
  color : String
  icon : String
deriving DecidableEq, Repr

/-- A `transactions` table row. -/
structure TransactionRow where
  user_id : Nat
  category_id : Nat
  amount : Rat
  date : Date
  type : TxnType
deriving DecidableEq, Repr

/-- A `budgets` table row. -/
structure BudgetRow where
  user_id : Nat
  category_id : Nat
  amount : Rat
  month : Date
deriving DecidableEq, Repr

/-- Insert into `categories`: only the RLS ownership check applies. -/
def insertCategoryRow (uid : Nat) (rows : List CategoryRow)
    (r : CategoryRow) : Except String (List CategoryRow) :=
  if r.user_id ≠ uid then .error rlsViolationMsg
  else .ok (rows ++ [r])

/-- Insert into `transactions`: RLS ownership check, then
`CHECK (amount > 0)`. -/
def insertTransactionRow (uid : Nat) (rows : List TransactionRow)
    (r : TransactionRow) : Except String (List TransactionRow) :=
  if r.user_id ≠ uid then .error rlsViolationMsg
  else if ¬ (0 < r.amount) then .error checkViolationMsg
  else .ok (rows ++ [r])

/-- Does some existing budget row already carry the same
`(user_id, category_id, month)` key? -/
def budgetKeyTaken (rows : List BudgetRow) (r : BudgetRow) : Bool :=
  rows.any (fun x => x.user_id == r.user_id &&
    x.category_id == r.category_id && x.month == r.month)

/-- Insert into `budgets`: RLS ownership check, `CHECK (amount > 0)`,
then `UNIQUE(user_id, category_id, month)`. -/
def insertBudgetRow (uid : Nat) (rows : List BudgetRow)
    (r : BudgetRow) : Except String (List BudgetRow) :=
  if r.user_id ≠ uid then .error rlsViolationMsg
  else if ¬ (0 < r.amount) then .error checkViolationMsg
  else if budgetKeyTaken rows r then .error uniqueViolationMsg
  else .ok (rows ++ [r])

/-! ### Mutation handlers (`TransactionForm`, `CategoryManager`,
`BudgetManager` in `Stats.tsx`)

Each handler is modelled as a function from the current table contents
and form state to the new table contents and form state.  The row the
insert receives stands for the parsed form fields (string-to-number
parsing is outside the claims).  `isOpen` / `showForm` model the flag
that mounts the form. -/

/-- `TransactionForm` component state (`Stats.tsx`, lines 367-373);
`isOpen` is the parent flag cleared by `onSuccess` / `onClose`. -/
structure TransactionFormState where
  type : TxnType
  amount : String
  description : String
  categoryId : String
  date : String
  loading : Bool
  error : String
  isOpen : Bool
deriving DecidableEq, Repr

/-- `TransactionForm.handleSubmit` (lines 377-396): clears the error,
sets loading, runs the insert; on rejection it stores the error
message, clears loading and leaves the form mounted with its fields
untouched; on success `onSuccess` closes the form. -/
def transactionFormSubmit (uid : Nat) (rows : List TransactionRow)
    (st : TransactionFormState) (row : TransactionRow) :
    List TransactionRow × TransactionFormState :=
  match insertTransactionRow uid rows row with
  | .error e => (rows, { st with error := e, loading := false })
  | .ok rows2 =>
      (rows2, { st with error := "", loading := true, isOpen := false })

/-- `CategoryManager` form state (`Stats.tsx`, lines 186-191). -/
structure CategoryFormState where
  showForm : Bool
  name : String
  type : TxnType
  color : String
  icon : String
  loading : Bool
deriving DecidableEq, Repr

/-- `COLORS[0]`. -/
def firstColor : String := "#ef4444"

/-- `ICONS[0]`. -/
def firstIcon : String := "DollarSign"

/-- `CategoryManager.handleSubmit` (lines 193-206): awaits the insert
but never reads its result, then unconditionally clears the fields,
stops loading and closes the form; the component has no error state. -/
def categoryFormSubmit (uid : Nat) (rows : List CategoryRow)
    (_st : CategoryFormState) (row : CategoryRow) :
    List CategoryRow × CategoryFormState :=
  let rows2 := match insertCategoryRow uid rows row with
    | .ok rs => rs
    | .error _ => rows
  (rows2, ⟨false, "", .expense, firstColor, firstIcon, false⟩)

/-- `BudgetManager` form state (`Stats.tsx`, lines 549-553). -/
structure BudgetFormState where
  showForm : Bool
  categoryId : String
  amount : String
  month : String
  loading : Bool
deriving DecidableEq, Repr

/-- `BudgetManager.handleSubmit` (lines 557-573): awaits the insert but
never reads its result, then unconditionally clears the fields (month
reset to the current month string), stops loading and closes the form;
the component has no error state. -/
def budgetFormSubmit (uid : Nat) (rows : List BudgetRow)
    (_st : BudgetFormState) (row : BudgetRow) (currentMonth : String) :
    List BudgetRow × BudgetFormState :=
  let rows2 := match insertBudgetRow uid rows row with
    | .ok rs => rs
    | .error _ => rows
  (rows2, ⟨false, "", "", currentMonth, false⟩)

/-- **C7.** The store does reject a duplicate `(owner, category, month)`
budget insert, but `BudgetManager.handleSubmit` ignores the result: at
the duplicate input below the table is left unchanged while the
returned form state is exactly the cleared-and-closed success state,
and the component has no error state at all — the rejection is never
surfaced as the claimed specific validation error. -/
theorem budget_duplicate_rejected_but_unsurfaced :
    insertBudgetRow 1 [⟨1, 7, 100, ⟨2024, 1, 1⟩⟩]
        ⟨1, 7, 120, ⟨2024, 1, 1⟩⟩
      = .error uniqueViolationMsg ∧
    budgetFormSubmit 1 [⟨1, 7, 100, ⟨2024, 1, 1⟩⟩]
        ⟨true, "7", "120", "2024-01", true⟩
        ⟨1, 7, 120, ⟨2024, 1, 1⟩⟩ "2024-01"
      = ([⟨1, 7, 100, ⟨2024, 1, 1⟩⟩],
         ⟨false, "", "", "2024-01", false⟩) := by
  constructor
  · rfl
  · rfl

/-- **C8.** On a store rejection the transaction form keeps the prior
rows, keeps the form mounted with its fields intact and surfaces the
message — but `CategoryManager.handleSubmit` ignores the result: at the
failing input below (ownership check rejects the insert) the rows are
unchanged yet the returned state is the cleared-and-closed success
state, with no error anywhere, so that form is not re-enabled for
resubmission as claimed. -/
theorem failed_mutation_form_handling :
    (∀ (uid : Nat) (rows : List TransactionRow)
        (st : TransactionFormState) (row : TransactionRow) (e : String),
      insertTransactionRow uid rows row = .error e →
      transactionFormSubmit uid rows st row
        = (rows, { st with error := e, loading := false })) ∧
    insertCategoryRow 2 [] ⟨1, "Food", .expense, "#3b82f6", "Coffee"⟩
      = .error rlsViolationMsg ∧
    categoryFormSubmit 2 []
        ⟨true, "Food", .expense, "#3b82f6", "Coffee", true⟩
        ⟨1, "Food", .expense, "#3b82f6", "Coffee"⟩
      = ([], ⟨false, "", .expense, firstColor, firstIcon, false⟩) := by
  refine ⟨?_, rfl, rfl⟩
  intro uid rows st row e he
  simp [transactionFormSubmit, he]

/-- Witness for C8: the transaction-path statement applied at a
concrete rejected insert. -/
theorem failed_mutation_form_handling_witness :
    transactionFormSubmit 2 []
        ⟨.expense, "5", "Lunch", "7", "2024-01-05", true, "", true⟩
        ⟨1, 7, 5, ⟨2024, 1, 5⟩, .expense⟩
      = ([], ⟨.expense, "5", "Lunch", "7", "2024-01-05", false,
          rlsViolationMsg, true⟩) := by
  exact (failed_mutation_form_handling).1 2 []
    ⟨.expense, "5", "Lunch", "7", "2024-01-05", true, "", true⟩
    ⟨1, 7, 5, ⟨2024, 1, 5⟩, .expense⟩ rlsViolationMsg rfl

/-! ### Row-level security policies (migration lines 108-177)

`ALTER TABLE … ENABLE ROW LEVEL SECURITY` makes deny the default; every
policy is granted `TO authenticated` with
`USING (auth.uid() = user_id)` (and the same `WITH CHECK` for writes),
so an operation is permitted exactly when the caller is authenticated
and owns the row.  A policy function returns whether the operation is
permitted on a row owned by the given user id. -/

inductive Role where
  | authenticated
  | anon
deriving DecidableEq, Repr

/-- The caller identity a policy is evaluated against. -/
structure AuthContext where
  role : Role
  uid : Nat
deriving DecidableEq, Repr

def categoriesSelectPolicy (ctx : AuthContext) (rowUserId : Nat) : Bool :=
  ctx.role == .authenticated && ctx.uid == rowUserId

def categoriesInsertPolicy (ctx : AuthContext) (newUserId : Nat) : Bool :=
  ctx.role == .authenticated && ctx.uid == newUserId

def categoriesUpdatePolicy (ctx : AuthContext)
    (rowUserId newUserId : Nat) : Bool :=
  ctx.role == .authenticated && ctx.uid == rowUserId &&
    ctx.uid == newUserId

def categoriesDeletePolicy (ctx : AuthContext) (rowUserId : Nat) : Bool :=
  ctx.role == .authenticated && ctx.uid == rowUserId

def transactionsSelectPolicy (ctx : AuthContext) (rowUserId : Nat) : Bool :=
  ctx.role == .authenticated && ctx.uid == rowUserId

def transactionsInsertPolicy (ctx : AuthContext) (newUserId : Nat) : Bool :=
  ctx.role == .authenticated && ctx.uid == newUserId

def transactionsUpdatePolicy (ctx : AuthContext)
    (rowUserId newUserId : Nat) : Bool :=
  ctx.role == .authenticated && ctx.uid == rowUserId &&
    ctx.uid == newUserId

def transactionsDeletePolicy (ctx : AuthContext) (rowUserId : Nat) : Bool :=
  ctx.role == .authenticated && ctx.uid == rowUserId

def budgetsSelectPolicy (ctx : AuthContext) (rowUserId : Nat) : Bool :=
  ctx.role == .authenticated && ctx.uid == rowUserId

def budgetsInsertPolicy (ctx : AuthContext) (newUserId : Nat) : Bool :=
  ctx.role == .authenticated && ctx.uid == newUserId

def budgetsUpdatePolicy (ctx : AuthContext)
    (rowUserId newUserId : Nat) : Bool :=
  ctx.role == .authenticated && ctx.uid == rowUserId &&
    ctx.uid == newUserId

def budgetsDeletePolicy (ctx : AuthContext) (rowUserId : Nat) : Bool :=
  ctx.role == .authenticated && ctx.uid == rowUserId

/-- **C9.** For each of the three tables and each of the four
operations, the policy permits the operation exactly when the caller is
authenticated and the row owner (and, for updates, also the updated row
owner) equals the caller identity: a write on a row not owned by the
caller is rejected, and read, update and delete are rejected for rows
whose owner is not the caller, so every row is visible to and mutable
by its owner alone. -/
theorem rls_ownership_spec (ctx : AuthContext) (u v : Nat) :
    (categoriesSelectPolicy ctx u = true ↔
      ctx.role = .authenticated ∧ ctx.uid = u) ∧
    (categoriesInsertPolicy ctx u = true ↔
      ctx.role = .authenticated ∧ ctx.uid = u) ∧
    (categoriesUpdatePolicy ctx u v = true ↔
      ctx.role = .authenticated ∧ ctx.uid = u ∧ ctx.uid = v) ∧
    (categoriesDeletePolicy ctx u = true ↔
      ctx.role = .authenticated ∧ ctx.uid = u) ∧
    (transactionsSelectPolicy ctx u = true ↔
      ctx.role = .authenticated ∧ ctx.uid = u) ∧
    (transactionsInsertPolicy ctx u = true ↔
      ctx.role = .authenticated ∧ ctx.uid = u) ∧
    (transactionsUpdatePolicy ctx u v = true ↔
      ctx.role = .authenticated ∧ ctx.uid = u ∧ ctx.uid = v) ∧
    (transactionsDeletePolicy ctx u = true ↔
      ctx.role = .authenticated ∧ ctx.uid = u) ∧
    (budgetsSelectPolicy ctx u = true ↔
      ctx.role = .authenticated ∧ ctx.uid = u) ∧
    (budgetsInsertPolicy ctx u = true ↔
      ctx.role = .authenticated ∧ ctx.uid = u) ∧
    (budgetsUpdatePolicy ctx u v = true ↔
      ctx.role = .authenticated ∧ ctx.uid = u ∧ ctx.uid = v) ∧
    (budgetsDeletePolicy ctx u = true ↔
      ctx.role = .authenticated ∧ ctx.uid = u) := by
  refine ⟨?_, ?_, ?_, ?_, ?_, ?_, ?_, ?_, ?_, ?_, ?_, ?_⟩ <;>
    simp [categoriesSelectPolicy, categoriesInsertPolicy,
      categoriesUpdatePolicy, categoriesDeletePolicy,
      transactionsSelectPolicy, transactionsInsertPolicy,
      transactionsUpdatePolicy, transactionsDeletePolicy,
      budgetsSelectPolicy, budgetsInsertPolicy,
      budgetsUpdatePolicy, budgetsDeletePolicy,
      Bool.and_eq_true, and_assoc]

/-- Witness for C9: the owner of a row may select it, and an insert
whose row owner differs from the caller is rejected. -/
theorem rls_ownership_spec_witness :
    categoriesSelectPolicy ⟨.authenticated, 1⟩ 1 = true ∧
    budgetsInsertPolicy ⟨.authenticated, 1⟩ 2 = false ∧
    transactionsSelectPolicy ⟨.anon, 1⟩ 1 = false := by
  have h := rls_ownership_spec ⟨.authenticated, 1⟩ 1 2
  exact ⟨h.1.mpr ⟨rfl, rfl⟩, by decide, by decide⟩
